import Mathlib

/-!
Verification development for a Stremio/Real-Debrid torrent addon.

The repository consists of a torrent utility library (`TorrentUtils` in
`src/lib/utils.js`), a multi-tracker scraper (`TorrentSearcher`), a
Real-Debrid API client, and two serverless request handlers (an older one
with a hardcoded API key and no credential check, and a newer one with a
credential check).  This file is a shallow embedding of the pure
computational core of those components into Lean: JavaScript strings
become `String`/`List Char`, regular-expression tests become executable
matchers, `undefined`/`null`-able values become `Option`, thrown
exceptions become `Except`, and the in-memory TTL cache becomes an
association list threaded explicitly.
-/

namespace StremioRD

/-! ## JavaScript string primitives -/

/-- Model of `String.prototype.toLowerCase`, per code point, covering the
ASCII Latin and Cyrillic ranges actually used by the repository
(`toLowerCase` is applied to torrent titles and file names, and the
episode patterns include the Cyrillic literal `сезон`/`серия`). -/
def jsLowerChar (c : Char) : Char :=
  if 65 ≤ c.toNat ∧ c.toNat ≤ 90 then Char.ofNat (c.toNat + 32)
  else if 1040 ≤ c.toNat ∧ c.toNat ≤ 1071 then Char.ofNat (c.toNat + 32)
  else if c.toNat = 1025 then Char.ofNat 1105
  else c

/-- Model of `String.prototype.toUpperCase`, per code point (ASCII Latin
and Cyrillic ranges). -/
def jsUpperChar (c : Char) : Char :=
  if 97 ≤ c.toNat ∧ c.toNat ≤ 122 then Char.ofNat (c.toNat - 32)
  else if 1072 ≤ c.toNat ∧ c.toNat ≤ 1103 then Char.ofNat (c.toNat - 32)
  else if c.toNat = 1105 then Char.ofNat 1025
  else c

def jsLowerStr (s : String) : String := String.mk (s.data.map jsLowerChar)

def jsUpperStr (s : String) : String := String.mk (s.data.map jsUpperChar)

/-- The character class `[a-fA-F0-9]` of the info-hash regular
expressions. -/
def isHexChar (c : Char) : Bool :=
  decide ((48 ≤ c.toNat ∧ c.toNat ≤ 57) ∨ (97 ≤ c.toNat ∧ c.toNat ≤ 102) ∨
    (65 ≤ c.toNat ∧ c.toNat ≤ 70))

/-- Upper-case hexadecimal characters `[A-F0-9]`. -/
def isUpperHexChar (c : Char) : Bool :=
  decide ((48 ≤ c.toNat ∧ c.toNat ≤ 57) ∨ (65 ≤ c.toNat ∧ c.toNat ≤ 70))

/-! ## `encodeURIComponent`

Modelled byte-exactly: characters in the unreserved set are kept, every
other character is UTF-8 encoded and percent-escaped with upper-case hex
digits. -/

def utf8Bytes (n : Nat) : List Nat :=
  if n < 128 then [n]
  else if n < 2048 then [192 + n / 64, 128 + n % 64]
  else if n < 65536 then [224 + n / 4096, 128 + (n / 64) % 64, 128 + n % 64]
  else [240 + n / 262144, 128 + (n / 4096) % 64, 128 + (n / 64) % 64, 128 + n % 64]

def hexDigitUpper (n : Nat) : Char :=
  if n < 10 then Char.ofNat (48 + n) else Char.ofNat (55 + n)

/-- The characters `encodeURIComponent` leaves unescaped:
`A-Z a-z 0-9 - _ . ! ~ * ' ( )`. -/
def isUriUnreserved (c : Char) : Bool :=
  (65 ≤ c.toNat && c.toNat ≤ 90) || (97 ≤ c.toNat && c.toNat ≤ 122) ||
  (48 ≤ c.toNat && c.toNat ≤ 57) ||
  [45, 95, 46, 33, 126, 42, 39, 40, 41].contains c.toNat

def encodeChar (c : Char) : List Char :=
  if isUriUnreserved c then [c]
  else (utf8Bytes c.toNat).foldr
    (fun b acc => '%' :: hexDigitUpper (b / 16) :: hexDigitUpper (b % 16) :: acc) []

def encodeURIComponent (s : String) : String :=
  String.mk (s.data.foldr (fun c acc => encodeChar c ++ acc) [])

/-! ## `TorrentUtils.extractInfoHash` and `TorrentUtils.createMagnetLink`

Source (`src/lib/utils.js`):
```
static extractInfoHash(magnet) {
    if (!magnet) return null;
    const match = magnet.match(/btih:([a-fA-F0-9]{40})/i);
    return match ? match[1].toUpperCase() : null;
}
```
The regular-expression test scans for the first position where the
literal `btih:` occurs (case-insensitively) followed by forty hex
characters; the capture group is those forty characters. -/

def btihLit : List Char := ['b', 't', 'i', 'h', ':']

/-- Case-insensitive literal test at the head of the list (the `i` flag
of the regular expression). -/
def matchCI (pat : List Char) (l : List Char) : Bool :=
  decide ((l.take pat.length).map jsLowerChar = pat)

/-- Attempt the regex `btih:([a-fA-F0-9]{40})` at the current position,
returning the capture group. -/
def btihAt (l : List Char) : Option (List Char) :=
  if matchCI btihLit l then
    if ((l.drop 5).take 40).length = 40 ∧ ((l.drop 5).take 40).all isHexChar then
      some ((l.drop 5).take 40)
    else none
  else none

/-- Left-to-right scan of the regex engine: first position where
`btihAt` succeeds. -/
def scanBtih : List Char → Option (List Char)
  | [] => none
  | c :: r =>
    match btihAt (c :: r) with
    | some h => some h
    | none => scanBtih r

def extractInfoHash (magnet : String) : Option String :=
  if magnet = "" then none
  else (scanBtih magnet.data).map (fun h => jsUpperStr (String.mk h))

def defaultTrackers : List String :=
  ["udp://tracker.opentrackr.org:1337/announce",
   "udp://tracker.openbittorrent.com:80/announce",
   "udp://open.stealth.si:80/announce",
   "udp://tracker.torrent.eu.org:451/announce",
   "udp://tracker.moeking.me:6969/announce"]

/-- The magnet link before the tracker parameters: the `btih:` prefix
with the upper-cased hash, then `&dn=` when `name` is truthy (non-null,
non-empty). -/
def magnetBase (infoHash : String) (name : Option String) : String :=
  match name with
  | some n =>
    if n = "" then "magnet:?xt=urn:btih:" ++ jsUpperStr infoHash
    else ("magnet:?xt=urn:btih:" ++ jsUpperStr infoHash) ++ "&dn=" ++ encodeURIComponent n
  | none => "magnet:?xt=urn:btih:" ++ jsUpperStr infoHash

/-- `createMagnetLink(infoHash, name = null, trackers = [])`: the base,
then one `&tr=` parameter for each default and caller tracker. -/
def createMagnetLink (infoHash : String) (name : Option String)
    (trackers : List String) : String :=
  (defaultTrackers ++ trackers).foldl
    (fun acc t => acc ++ "&tr=" ++ encodeURIComponent t) (magnetBase infoHash name)

/-! ## `TorrentUtils.parseQuality`

A direct transcription of the keyword `if`/`else if` chains; every field
starts out `null` (here `none`) and is set by the first matching keyword. -/

/-- `hay.includes(needle)` on JavaScript strings. -/
def jsIncludes (hay needle : String) : Bool :=
  decide (needle.data <:+: hay.data)

structure QualityDesc where
  resolution : Option String
  source : Option String
  codec : Option String
  audio : Option String
  hdr : Bool
deriving DecidableEq, Repr

def parseQuality (title : String) : QualityDesc :=
  let t := jsLowerStr title
  let resolution :=
    if jsIncludes t "2160p" || jsIncludes t "4k" || jsIncludes t "uhd" then some "4K"
    else if jsIncludes t "1080p" then some "1080p"
    else if jsIncludes t "720p" then some "720p"
    else if jsIncludes t "480p" then some "480p"
    else none
  let source :=
    if jsIncludes t "remux" then some "REMUX"
    else if jsIncludes t "bluray" || jsIncludes t "bdrip" || jsIncludes t "brrip" then
      some "BluRay"
    else if jsIncludes t "web-dl" || jsIncludes t "webdl" then some "WEB-DL"
    else if jsIncludes t "webrip" then some "WEBRip"
    else if jsIncludes t "hdtv" then some "HDTV"
    else if jsIncludes t "dvdrip" then some "DVDRip"
    else if jsIncludes t "cam" || jsIncludes t "camrip" then some "CAM"
    else if jsIncludes t "ts" || jsIncludes t "telesync" then some "TS"
    else none
  let codec :=
    if jsIncludes t "hevc" || jsIncludes t "h265" || jsIncludes t "x265" then some "HEVC"
    else if jsIncludes t "h264" || jsIncludes t "x264" || jsIncludes t "avc" then some "H.264"
    else if jsIncludes t "av1" then some "AV1"
    else none
  let audio :=
    if jsIncludes t "atmos" then some "Dolby Atmos"
    else if jsIncludes t "truehd" then some "TrueHD"
    else if jsIncludes t "dts-hd" || jsIncludes t "dts-ma" then some "DTS-HD"
    else if jsIncludes t "dts" then some "DTS"
    else if jsIncludes t "dd5.1" || jsIncludes t "ac3" then some "DD 5.1"
    else if jsIncludes t "aac" then some "AAC"
    else none
  let hdr := jsIncludes t "hdr" || jsIncludes t "hdr10" ||
    jsIncludes t "dolby vision" || jsIncludes t "dv"
  ⟨resolution, source, codec, audio, hdr⟩

/-! ## Regular-expression machinery for the episode matchers

The dynamically built regular expressions of `findEpisodeFile`
(`src/lib/utils.js`) and `findVideoFile` (the handler file) are embedded
as executable matchers in continuation style.  `RegExp.test` is
existence of a match, so each combinator is a disjunction over the ways
the corresponding regex piece can consume input. -/

/-- Decimal digit string of a number interpolated into a pattern
(template literal `${n}`). -/
def natDigits (n : Nat) : List Char := (Nat.repr n).data

/-- Kleene star over a character class (`0*`, `\s*`, `.*`): succeed if
the continuation matches after consuming any number of class
characters. -/
def starClass (cls : Char → Bool) (k : List Char → Bool) : List Char → Bool
  | [] => k []
  | c :: r => k (c :: r) || (cls c && starClass cls k r)

/-- A literal string followed by a continuation. -/
def litK (pat : List Char) (k : List Char → Bool) (l : List Char) : Bool :=
  pat.isPrefixOf l && k (l.drop pat.length)

/-- An optional `0` (`0?`) followed by a continuation. -/
def opt0 (k : List Char → Bool) (l : List Char) : Bool :=
  k l ||
  (match l with
   | c :: r => (c == '0') && k r
   | [] => false)

def isZeroChar (c : Char) : Bool := c == '0'

/-- The class `\s` (whitespace), restricted to its common members. -/
def jsSpaceChar (c : Char) : Bool :=
  decide (c.toNat = 32 ∨ c.toNat = 9 ∨ c.toNat = 10 ∨ c.toNat = 13 ∨
    c.toNat = 11 ∨ c.toNat = 12 ∨ c.toNat = 160)

/-- The class `.` (anything but a line terminator). -/
def notNewline (c : Char) : Bool :=
  decide (¬(c.toNat = 10 ∨ c.toNat = 13 ∨ c.toNat = 8232 ∨ c.toNat = 8233))

/-- The word-character class `\w` used by the `\b` assertion. -/
def isWordChar (c : Char) : Bool :=
  decide ((48 ≤ c.toNat ∧ c.toNat ≤ 57) ∨ (65 ≤ c.toNat ∧ c.toNat ≤ 90) ∨
    (97 ≤ c.toNat ∧ c.toNat ≤ 122) ∨ c.toNat = 95)

/-- The negative lookahead `(?!\d)`: the rest of the input must not start
with a digit. -/
def boundaryNotDigit : List Char → Bool
  | [] => true
  | c :: _ => !c.isDigit

/-- A continuation that accepts anything (end of a pattern without a
trailing assertion). -/
def trueK : List Char → Bool := fun _ => true

/-- Scan: the regex engine tries the pattern at every position. -/
def anyPos (p : List Char → Bool) : List Char → Bool
  | [] => p []
  | c :: r => p (c :: r) || anyPos p r

def bOk : Option Char → Bool
  | none => true
  | some c => !isWordChar c

/-- Scan with a `\b` assertion at the pattern start: the position is
acceptable only at the beginning of the input or after a non-word
character (the pattern itself starts with a word character). -/
def anyPosBoundary (p : List Char → Bool) : Option Char → List Char → Bool
  | prev, [] => bOk prev && p []
  | prev, c :: r => (bOk prev && p (c :: r)) || anyPosBoundary p (some c) r

/-! ### Patterns of `TorrentUtils.findEpisodeFile`

```
new RegExp(`s0*${season}e0*${episode}(?!\\d)`, 'i')
new RegExp(`\\b${season}x0*${episode}(?!\\d)`, 'i')
new RegExp(`season\\s*0*${season}.*episode\\s*0*${episode}`, 'i')
new RegExp(`сезон\\s*0*${season}.*серия\\s*0*${episode}`, 'i')
```
tested against the already-lower-cased file name. -/

def feEpiTail (e : Nat) (l : List Char) : Bool :=
  match l with
  | c :: r => (c == 'e') && starClass isZeroChar (litK (natDigits e) boundaryNotDigit) r
  | [] => false

def feP1At (s e : Nat) (l : List Char) : Bool :=
  match l with
  | c :: r => (c == 's') && starClass isZeroChar (litK (natDigits s) (feEpiTail e)) r
  | [] => false

def feP1 (s e : Nat) (l : List Char) : Bool := anyPos (feP1At s e) l

def feXTail (e : Nat) (l : List Char) : Bool :=
  match l with
  | c :: r => (c == 'x') && starClass isZeroChar (litK (natDigits e) boundaryNotDigit) r
  | [] => false

def feP2At (s e : Nat) (l : List Char) : Bool :=
  litK (natDigits s) (feXTail e) l

def feP2 (s e : Nat) (l : List Char) : Bool := anyPosBoundary (feP2At s e) none l

def feP3At (s e : Nat) (l : List Char) : Bool :=
  litK "season".data
    (starClass jsSpaceChar (starClass isZeroChar (litK (natDigits s)
      (starClass notNewline (litK "episode".data
        (starClass jsSpaceChar (starClass isZeroChar (litK (natDigits e) trueK)))))))) l

def feP3 (s e : Nat) (l : List Char) : Bool := anyPos (feP3At s e) l

def feP4At (s e : Nat) (l : List Char) : Bool :=
  litK "сезон".data
    (starClass jsSpaceChar (starClass isZeroChar (litK (natDigits s)
      (starClass notNewline (litK "серия".data
        (starClass jsSpaceChar (starClass isZeroChar (litK (natDigits e) trueK)))))))) l

def feP4 (s e : Nat) (l : List Char) : Bool := anyPos (feP4At s e) l

/-- `patterns.some(pattern => pattern.test(name))` in `findEpisodeFile`. -/
def feMatches (name : List Char) (s e : Nat) : Bool :=
  feP1 s e name || feP2 s e name || feP3 s e name || feP4 s e name

/-! ### `TorrentUtils.findEpisodeFile` itself -/

/-- A file entry as consumed by `findEpisodeFile`; a missing (`undefined`)
`path`/`name` is modelled as `""`, which is equally falsy in the
`file.path || file.name || ''` chain. -/
structure RdFile where
  path : String
  name : String
deriving DecidableEq

/-- JavaScript `a || b` on strings (empty string is falsy). -/
def jsOrStr (a b : String) : String := if a = "" then b else a

def fileNameChars (f : RdFile) : List Char :=
  (jsLowerStr (jsOrStr f.path (jsOrStr f.name ""))).data

def videoExtsUtils : List String := [".mkv", ".mp4", ".avi", ".mov", ".wmv"]

/-- `videoExts.some(ext => name.endsWith(ext))`. -/
def isVideoName (exts : List String) (name : List Char) : Bool :=
  exts.any (fun ext => ext.data.isSuffixOf name)

/-- First loop of `findEpisodeFile`: first video file whose (lower-cased)
name matches one of the patterns; `i` is the running 0-based index. -/
def feLoop1 (s e i : Nat) : List RdFile → Option Nat
  | [] => none
  | f :: rest =>
    let name := fileNameChars f
    if isVideoName videoExtsUtils name then
      if feMatches name s e then some (i + 1) else feLoop1 s e (i + 1) rest
    else feLoop1 s e (i + 1) rest

/-- Second loop of `findEpisodeFile`: fall back to the first video file. -/
def feLoop2 (i : Nat) : List RdFile → Option Nat
  | [] => none
  | f :: rest =>
    if isVideoName videoExtsUtils (fileNameChars f) then some (i + 1)
    else feLoop2 (i + 1) rest

def findEpisodeFile (files : List RdFile) (season episode : Nat) : Option Nat :=
  match feLoop1 season episode 0 files with
  | some k => some k
  | none => feLoop2 0 files

/-! ### Patterns of the handler's `findVideoFile`

```
new RegExp(`s0?${season}e0?${episode}`, 'i')
new RegExp(`${season}x0?${episode}`, 'i')
new RegExp(`[^\\d]${season}${episode.toString().padStart(2, '0')}[^\\d]`)
```
Note the missing `(?!\d)` boundary and the missing `\b`. -/

def fvEpiTail (e : Nat) (l : List Char) : Bool :=
  match l with
  | c :: r => (c == 'e') && opt0 (litK (natDigits e) trueK) r
  | [] => false

def fvP1At (s e : Nat) (l : List Char) : Bool :=
  match l with
  | c :: r => (c == 's') && opt0 (litK (natDigits s) (fvEpiTail e)) r
  | [] => false

def fvP1 (s e : Nat) (l : List Char) : Bool := anyPos (fvP1At s e) l

def fvXTail (e : Nat) (l : List Char) : Bool :=
  match l with
  | c :: r => (c == 'x') && opt0 (litK (natDigits e) trueK) r
  | [] => false

def fvP2At (s e : Nat) (l : List Char) : Bool :=
  litK (natDigits s) (fvXTail e) l

def fvP2 (s e : Nat) (l : List Char) : Bool := anyPos (fvP2At s e) l

/-- `${episode}.toString().padStart(2, '0')`. -/
def padStart2 (e : Nat) : List Char :=
  let d := natDigits e
  List.replicate (2 - d.length) '0' ++ d

def fvNonDigitTail : List Char → Bool
  | c :: _ => !c.isDigit
  | [] => false

def fvP3At (s e : Nat) (l : List Char) : Bool :=
  match l with
  | c :: r => (!c.isDigit) && litK (natDigits s ++ padStart2 e) fvNonDigitTail r
  | [] => false

def fvP3 (s e : Nat) (l : List Char) : Bool := anyPos (fvP3At s e) l

def fvMatches (name : List Char) (s e : Nat) : Bool :=
  fvP1 s e name || fvP2 s e name || fvP3 s e name

/-- A Real-Debrid file entry as consumed by the handler's
`findVideoFile`, which reads only `file.path`. -/
structure FileP where
  path : String
deriving DecidableEq

def videoExtsHandler : List String := [".mkv", ".mp4", ".avi"]

def fvLoop1 (s e i : Nat) : List FileP → Option Nat
  | [] => none
  | f :: rest =>
    let name := (jsLowerStr f.path).data
    if isVideoName videoExtsHandler name then
      if fvMatches name s e then some (i + 1) else fvLoop1 s e (i + 1) rest
    else fvLoop1 s e (i + 1) rest

def fvLoop2 (i : Nat) : List FileP → Option Nat
  | [] => none
  | f :: rest =>
    if isVideoName videoExtsHandler ((jsLowerStr f.path).data) then some (i + 1)
    else fvLoop2 (i + 1) rest

/-- `findVideoFile(files, season, episode)` from the handler file. -/
def findVideoFile (files : List FileP) (season episode : Nat) : Option Nat :=
  match fvLoop1 season episode 0 files with
  | some k => some k
  | none => fvLoop2 0 files

/-! ## Candidates, deduplication and ranking -/

/-- A discovered torrent as produced by the search adapters.  `seeders`
is `Option Nat` because the JavaScript field may be `undefined`; the
sources read it as `t.seeders || 0`. -/
structure Torrent where
  title : String
  infoHash : String
  size : String
  seeders : Option Nat
  quality : String
  source : String
deriving DecidableEq, Repr

def seedersD (t : Torrent) : Nat := t.seeders.getD 0

/-- `TorrentUtils.removeDuplicates`: `filter` over the list with a
closed-over `seen` set of upper-cased hashes; torrents with a falsy
(empty/absent) `infoHash` bypass the filter entirely. -/
def removeDupAux (seen : List String) : List Torrent → List Torrent
  | [] => []
  | t :: rest =>
    if t.infoHash = "" then t :: removeDupAux seen rest
    else if seen.contains (jsUpperStr t.infoHash) then removeDupAux seen rest
    else t :: removeDupAux (jsUpperStr t.infoHash :: seen) rest

def removeDuplicates (torrents : List Torrent) : List Torrent :=
  removeDupAux [] torrents

/-- The quality-priority table of `sortByPriority`
(`qualityPriority[q] || 0`). -/
def qualityPriority (q : String) : Nat :=
  if q = "4K" then 100
  else if q = "REMUX" then 95
  else if q = "2160p" then 90
  else if q = "1080p" then 80
  else if q = "BluRay" then 70
  else if q = "720p" then 60
  else if q = "WEB-DL" then 65
  else if q = "WEBRip" then 60
  else if q = "HDTV" then 50
  else if q = "480p" then 40
  else 0

/-- The comparator passed to `Array.prototype.sort` by
`sortByPriority`: seed difference first (when its absolute value
exceeds 10), quality priority otherwise.  Negative means `a` is ordered
before `b`. -/
def sortCmp (a b : Torrent) : Int :=
  if (((seedersD b : Int) - (seedersD a : Int)).natAbs > 10) then
    (seedersD b : Int) - (seedersD a : Int)
  else (qualityPriority b.quality : Int) - (qualityPriority a.quality : Int)

def sortLe (a b : Torrent) : Prop := sortCmp a b ≤ 0

instance : DecidableRel sortLe := fun a b => inferInstanceAs (Decidable (sortCmp a b ≤ 0))

/-- `Array.prototype.sort` (stable since ES2019) with the comparator
above, modelled as a stable insertion sort: an element is placed before
the first already-placed element that does not compare at-or-before
it. -/
def sortByPriority (torrents : List Torrent) : List Torrent :=
  List.insertionSort sortLe torrents

/-! ## `TorrentSearcher.search` aggregation

`Promise.allSettled` over the per-tracker searches, pushing the value of
each fulfilled promise, then `sort((a, b) => (b.seeders || 0) - (a.seeders || 0))`. -/

def seedersLe (a b : Torrent) : Prop := seedersD b ≤ seedersD a

instance : DecidableRel seedersLe := fun a b =>
  inferInstanceAs (Decidable (seedersD b ≤ seedersD a))

def sortBySeeders (l : List Torrent) : List Torrent :=
  List.insertionSort seedersLe l

/-- The `allSettled` collection loop: fulfilled adapter outcomes are
concatenated in adapter order, rejected ones are skipped. -/
def collectSettled (outcomes : List (Except String (List Torrent))) : List Torrent :=
  outcomes.foldl
    (fun acc r =>
      match r with
      | .ok v => acc ++ v
      | .error _ => acc) []

/-- `TorrentSearcher.search` after the per-tracker calls settled: each
adapter's outcome is either a candidate list (fulfilled) or an error
(rejected/timeout). -/
def searchAggregate (outcomes : List (Except String (List Torrent))) : List Torrent :=
  sortBySeeders (collectSettled outcomes)

/-! ## Streams, the availability-resolution loop, and the result cache -/

structure BehaviorHints where
  bingeGroup : String
  notWebReady : Bool
deriving DecidableEq, Repr

structure StremioStream where
  name : String
  title : String
  infoHash : String
  fileIdx : Option Nat
  hints : BehaviorHints
  sources : List String
  description : String
deriving DecidableEq, Repr

/-- Real-Debrid availability answer as used by the handler: the flag and
(under `available`) the mapped file list. -/
structure RdInfo where
  available : Bool
  files : Option (List FileP)
deriving DecidableEq

/-- The stream record pushed by the handler's availability loop. -/
def mkStreamRec (t : Torrent) (fi : Option Nat) : StremioStream :=
  ⟨"RD 🇷🇺 " ++ t.source,
   t.title,
   t.infoHash,
   fi,
   ⟨"realdebrid-" ++ t.infoHash, true⟩,
   (match t.seeders with
    | some n => if n = 0 then [] else ["👥 " ++ Nat.repr n]
    | none => []),
   String.intercalate " | " (List.filterMap id
     [(if t.size = "" then none else some ("📦 " ++ t.size)),
      (if t.quality = "" then none else some ("🎬 " ++ t.quality)),
      (match t.seeders with
       | some n => if n = 0 then none else some ("👥 Сиды: " ++ Nat.repr n)
       | none => none)])⟩

/-- One iteration of the availability loop for a candidate: a thrown
provider call is caught (`catch (err)`), an unavailable candidate is
skipped, an available one yields a stream whose file index is resolved
only for series with a file list. -/
def emitOne (check : String → Except String RdInfo) (mediaType : String)
    (season episode : Nat) (t : Torrent) : Option StremioStream :=
  match check t.infoHash with
  | .error _ => none
  | .ok info =>
    if info.available then
      let fi :=
        if mediaType = "series" then
          match info.files with
          | some fs => findVideoFile fs season episode
          | none => none
        else none
      some (mkStreamRec t fi)
    else none

/-- The handler's `for (const torrent of torrents.slice(0, 15))` loop,
accumulating `streams.push(...)`. -/
def rsLoop (check : String → Except String RdInfo) (mediaType : String)
    (season episode : Nat) (acc : List StremioStream) :
    List Torrent → List StremioStream
  | [] => acc
  | t :: rest =>
    match check t.infoHash with
    | .error _ => rsLoop check mediaType season episode acc rest
    | .ok info =>
      if info.available then
        let fi :=
          if mediaType = "series" then
            match info.files with
            | some fs => findVideoFile fs season episode
            | none => none
          else none
        rsLoop check mediaType season episode (acc ++ [mkStreamRec t fi]) rest
      else rsLoop check mediaType season episode acc rest

/-- The availability resolver over the ranked candidates: bounded to the
first 15 (`torrents.slice(0, 15)`). -/
def resolveStreams (check : String → Except String RdInfo) (mediaType : String)
    (season episode : Nat) (torrents : List Torrent) : List StremioStream :=
  rsLoop check mediaType season episode [] (torrents.take 15)

/-! ### The result cache -/

structure CacheItem where
  data : List StremioStream
  timestamp : Nat
deriving DecidableEq

def Cache : Type := List (String × CacheItem)

def emptyCache : Cache := []

def cacheTTL : Nat := 3600000

/-- `cache.set(key, {data, timestamp: Date.now()})`. -/
def setCache (c : Cache) (key : String) (data : List StremioStream) (now : Nat) : Cache :=
  (key, ⟨data, now⟩) :: List.filter (fun kv => kv.1 != key) c

/-- `cache.get(key)` of the underlying `Map`. -/
def lookupCache (c : Cache) (key : String) : Option CacheItem :=
  (List.find? (fun kv => kv.1 == key) c).map (fun kv => kv.2)

/-- `getCache(key)`: miss on absent key, lazy eviction on expired TTL,
otherwise the stored stream list. -/
def getCache (c : Cache) (key : String) (now : Nat) :
    Option (List StremioStream) × Cache :=
  match lookupCache c key with
  | none => (none, c)
  | some item =>
    if now - item.timestamp > cacheTTL then (none, List.filter (fun kv => kv.1 != key) c)
    else (some item.data, c)

/-- `` `streams:${id}:${config.rdApiKey.substring(0, 8)}` ``. -/
def cacheKey (id : String) (rdApiKey : String) : String :=
  "streams:" ++ id ++ ":" ++ String.mk (rdApiKey.data.take 8)

/-! ## The two request handlers (credential-relevant behaviour)

`HandlerResult` embeds the two shapes of `{streams: [...]}` responses the
handlers produce: a single `notFound: true` notice entry, or a list of
real stream records.  The `Bool` component records whether the
search/availability pipeline was invoked at all. -/

inductive HandlerResult where
  | notice (name description : String)
  | streams (l : List StremioStream)
deriving DecidableEq

/-- JavaScript truthiness of `config && config.rdApiKey`: absent or
empty credential is falsy. -/
def rdKeyMissing : Option String → Bool
  | none => true
  | some k => k = ""

/-- The newer handler: explicit credential check before anything else. -/
def handler001 (rdApiKey : Option String)
    (pipeline : String → Except String (List StremioStream)) : HandlerResult × Bool :=
  if rdKeyMissing rdApiKey then
    (.notice "⚠️ Требуется API ключ Real-Debrid" "Настройте аддон и добавьте API ключ", false)
  else
    match rdApiKey with
    | none => (.notice "⚠️ Требуется API ключ Real-Debrid" "Настройте аддон и добавьте API ключ", false)
    | some key =>
      match pipeline key with
      | .ok s => (.streams s, true)
      | .error m => (.notice "❌ Ошибка" m, true)

/-- The older handler's body up to the fault: it performs no credential
check and dereferences `config.rdApiKey.substring(0, 8)` while building
the cache key, so a missing credential throws a `TypeError` before any
search or provider call. -/
def handler000Body (rdApiKey : Option String)
    (pipeline : String → Except String (List StremioStream)) :
    Except String (List StremioStream) :=
  match rdApiKey with
  | none => .error "Cannot read properties of undefined (reading 'substring')"
  | some key => pipeline key

/-- The older handler: the `try/catch` around the body converts the
thrown fault into a generic `❌ Ошибка` notice. -/
def handler000 (rdApiKey : Option String)
    (pipeline : String → Except String (List StremioStream)) : HandlerResult × Bool :=
  match rdApiKey with
  | none =>
    (.notice "❌ Ошибка" "Cannot read properties of undefined (reading 'substring')", false)
  | some key =>
    match pipeline key with
    | .ok s => (.streams s, true)
    | .error m => (.notice "❌ Ошибка" m, true)

/-! ## Supporting lemmas on characters -/

theorem charOfNat_toNat (n : Nat) (h : n < 55296) : (Char.ofNat n).toNat = n := by
  unfold Char.ofNat
  split
  · rfl
  · next hn => exact absurd (Or.inl h) hn

theorem char_toNat_lt (c : Char) : c.toNat < 1114112 := by
  rcases c.valid with h | ⟨_, h⟩
  · exact Nat.lt_trans h (by decide)
  · exact h

theorem jsUpperChar_toNat (c : Char) :
    (jsUpperChar c).toNat =
      if (97 ≤ c.toNat ∧ c.toNat ≤ 122) ∨ (1072 ≤ c.toNat ∧ c.toNat ≤ 1103) then
        c.toNat - 32
      else if c.toNat = 1105 then 1025 else c.toNat := by
  unfold jsUpperChar
  by_cases h1 : 97 ≤ c.toNat ∧ c.toNat ≤ 122
  · rw [if_pos h1, if_pos (Or.inl h1), charOfNat_toNat (c.toNat - 32) (by omega)]
  · by_cases h2 : 1072 ≤ c.toNat ∧ c.toNat ≤ 1103
    · rw [if_neg h1, if_pos h2, if_pos (Or.inr h2), charOfNat_toNat (c.toNat - 32) (by omega)]
    · by_cases h3 : c.toNat = 1105
      · rw [if_neg h1, if_neg h2, if_pos h3, if_neg (by omega), if_pos h3,
          charOfNat_toNat 1025 (by omega)]
      · rw [if_neg h1, if_neg h2, if_neg h3, if_neg (by omega), if_neg h3]

theorem isHexChar_jsUpperChar {c : Char} (h : isHexChar c = true) :
    isHexChar (jsUpperChar c) = true := by
  unfold isHexChar at h ⊢
  rw [decide_eq_true_iff] at h ⊢
  rw [jsUpperChar_toNat]
  split
  · next h1 => omega
  · next h1 =>
    split
    · next h2 => omega
    · next h2 => exact h

theorem isUpperHexChar_jsUpperChar {c : Char} (h : isHexChar c = true) :
    isUpperHexChar (jsUpperChar c) = true := by
  unfold isHexChar at h
  unfold isUpperHexChar
  rw [decide_eq_true_iff] at h ⊢
  rw [jsUpperChar_toNat]
  split
  · next h1 => omega
  · next h1 =>
    split
    · next h2 => omega
    · next h2 => omega

theorem char_eq_of_toNat_eq {a b : Char} (h : a.toNat = b.toNat) : a = b :=
  Char.eq_of_val_eq (UInt32.eq_of_toBitVec_eq (BitVec.eq_of_toNat_eq h))

theorem jsUpperChar_idem (c : Char) : jsUpperChar (jsUpperChar c) = jsUpperChar c := by
  apply char_eq_of_toNat_eq
  by_cases hA : (97 ≤ c.toNat ∧ c.toNat ≤ 122) ∨ (1072 ≤ c.toNat ∧ c.toNat ≤ 1103)
  · have e1 : (jsUpperChar c).toNat = c.toNat - 32 := by
      rw [jsUpperChar_toNat]; exact if_pos hA
    rw [jsUpperChar_toNat (jsUpperChar c), e1, if_neg (by omega), if_neg (by omega)]
  · by_cases hB : c.toNat = 1105
    · have e1 : (jsUpperChar c).toNat = 1025 := by
        rw [jsUpperChar_toNat, if_neg hA, if_pos hB]
      rw [jsUpperChar_toNat (jsUpperChar c), e1, if_neg (by omega), if_neg (by omega)]
    · have e1 : (jsUpperChar c).toNat = c.toNat := by
        rw [jsUpperChar_toNat, if_neg hA, if_neg hB]
      rw [jsUpperChar_toNat (jsUpperChar c), e1, if_neg hA, if_neg hB]

/-! ## Info-hash extraction: scan lemmas -/

theorem btihAt_cons_ne (c : Char) (r : List Char) (h : jsLowerChar c ≠ 'b') :
    btihAt (c :: r) = none := by
  have hm : matchCI btihLit (c :: r) = false := by
    unfold matchCI
    apply decide_eq_false
    intro heq
    simp only [btihLit] at heq
    have heq' : jsLowerChar c :: List.map jsLowerChar (List.take 4 r) =
        ['b', 't', 'i', 'h', ':'] := heq
    injection heq' with h1 _
    exact h h1
  unfold btihAt
  rw [hm]
  simp

theorem scanBtih_cons_eq (c : Char) (r : List Char) :
    scanBtih (c :: r) =
      match btihAt (c :: r) with
      | some hh => some hh
      | none => scanBtih r := rfl

theorem scanBtih_cons_none (c : Char) (r : List Char) (h : btihAt (c :: r) = none) :
    scanBtih (c :: r) = scanBtih r := by
  rw [scanBtih_cons_eq, h]

theorem scanBtih_cons_some (c : Char) (r hh : List Char) (h : btihAt (c :: r) = some hh) :
    scanBtih (c :: r) = some hh := by
  rw [scanBtih_cons_eq, h]

theorem btihAt_some (l hh : List Char) (hb : btihAt l = some hh) :
    hh.length = 40 ∧ hh.all isHexChar = true := by
  unfold btihAt at hb
  split at hb
  · split at hb
    · next hcond =>
      injection hb with he
      subst he
      exact hcond
    · simp at hb
  · simp at hb

theorem scanBtih_shape (l : List Char) :
    ∀ hh, scanBtih l = some hh → hh.length = 40 ∧ hh.all isHexChar = true := by
  induction l with
  | nil => intro hh hsc; simp [scanBtih] at hsc
  | cons c r ih =>
    intro hh hsc
    cases hb : btihAt (c :: r) with
    | some h2 =>
      rw [scanBtih_cons_some c r h2 hb] at hsc
      injection hsc with he
      subst he
      exact btihAt_some (c :: r) h2 hb
    | none =>
      rw [scanBtih_cons_none c r hb] at hsc
      exact ih hh hsc

theorem scanBtih_btih_prefixed (H R : List Char) (hlen : H.length = 40)
    (hhex : H.all isHexChar = true) :
    scanBtih ('m' :: 'a' :: 'g' :: 'n' :: 'e' :: 't' :: ':' :: '?' :: 'x' :: 't' ::
      '=' :: 'u' :: 'r' :: 'n' :: ':' :: 'b' :: 't' :: 'i' :: 'h' :: ':' :: (H ++ R)) =
      some H := by
  rw [scanBtih_cons_none 'm' _ (btihAt_cons_ne 'm' _ (by decide))]
  rw [scanBtih_cons_none 'a' _ (btihAt_cons_ne 'a' _ (by decide))]
  rw [scanBtih_cons_none 'g' _ (btihAt_cons_ne 'g' _ (by decide))]
  rw [scanBtih_cons_none 'n' _ (btihAt_cons_ne 'n' _ (by decide))]
  rw [scanBtih_cons_none 'e' _ (btihAt_cons_ne 'e' _ (by decide))]
  rw [scanBtih_cons_none 't' _ (btihAt_cons_ne 't' _ (by decide))]
  rw [scanBtih_cons_none ':' _ (btihAt_cons_ne ':' _ (by decide))]
  rw [scanBtih_cons_none '?' _ (btihAt_cons_ne '?' _ (by decide))]
  rw [scanBtih_cons_none 'x' _ (btihAt_cons_ne 'x' _ (by decide))]
  rw [scanBtih_cons_none 't' _ (btihAt_cons_ne 't' _ (by decide))]
  rw [scanBtih_cons_none '=' _ (btihAt_cons_ne '=' _ (by decide))]
  rw [scanBtih_cons_none 'u' _ (btihAt_cons_ne 'u' _ (by decide))]
  rw [scanBtih_cons_none 'r' _ (btihAt_cons_ne 'r' _ (by decide))]
  rw [scanBtih_cons_none 'n' _ (btihAt_cons_ne 'n' _ (by decide))]
  rw [scanBtih_cons_none ':' _ (btihAt_cons_ne ':' _ (by decide))]
  have hm : matchCI btihLit ('b' :: 't' :: 'i' :: 'h' :: ':' :: (H ++ R)) = true := by
    rfl
  have htake : (('b' :: 't' :: 'i' :: 'h' :: ':' :: (H ++ R)).drop 5).take 40 = H := by
    show (H ++ R).take 40 = H
    exact List.take_left' hlen
  apply scanBtih_cons_some
  unfold btihAt
  rw [hm, htake]
  simp [hlen, hhex]

theorem foldlTr_data (l : List String) : ∀ init : String,
    ∃ R, (List.foldl (fun acc t => acc ++ "&tr=" ++ encodeURIComponent t) init l).data =
      init.data ++ R := by
  induction l with
  | nil => exact fun init => ⟨[], by simp⟩
  | cons t l ih =>
    intro init
    obtain ⟨R2, hR⟩ := ih (init ++ "&tr=" ++ encodeURIComponent t)
    refine ⟨"&tr=".data ++ ((encodeURIComponent t).data ++ R2), ?_⟩
    rw [List.foldl_cons, hR]
    simp [String.data_append]

theorem magnetBase_data (h : String) (name : Option String) :
    ∃ N, (magnetBase h name).data =
      'm' :: 'a' :: 'g' :: 'n' :: 'e' :: 't' :: ':' :: '?' :: 'x' :: 't' ::
      '=' :: 'u' :: 'r' :: 'n' :: ':' :: 'b' :: 't' :: 'i' :: 'h' :: ':' ::
      (h.data.map jsUpperChar ++ N) := by
  have hcore : ("magnet:?xt=urn:btih:" ++ jsUpperStr h).data =
      'm' :: 'a' :: 'g' :: 'n' :: 'e' :: 't' :: ':' :: '?' :: 'x' :: 't' ::
      '=' :: 'u' :: 'r' :: 'n' :: ':' :: 'b' :: 't' :: 'i' :: 'h' :: ':' ::
      (h.data.map jsUpperChar) := by
    rw [String.data_append]
    rfl
  cases name with
  | none =>
    refine ⟨[], ?_⟩
    show ("magnet:?xt=urn:btih:" ++ jsUpperStr h).data = _
    rw [hcore, List.append_nil]
  | some n =>
    by_cases hn : n = ""
    · refine ⟨[], ?_⟩
      show (if n = "" then "magnet:?xt=urn:btih:" ++ jsUpperStr h
        else ("magnet:?xt=urn:btih:" ++ jsUpperStr h) ++ "&dn=" ++ encodeURIComponent n).data = _
      rw [if_pos hn, hcore, List.append_nil]
    · refine ⟨"&dn=".data ++ (encodeURIComponent n).data, ?_⟩
      show (if n = "" then "magnet:?xt=urn:btih:" ++ jsUpperStr h
        else ("magnet:?xt=urn:btih:" ++ jsUpperStr h) ++ "&dn=" ++ encodeURIComponent n).data = _
      rw [if_neg hn]
      rw [String.data_append, String.data_append, hcore]
      simp

theorem createMagnetLink_data (h : String) (name : Option String) (tr : List String) :
    ∃ R, (createMagnetLink h name tr).data =
      'm' :: 'a' :: 'g' :: 'n' :: 'e' :: 't' :: ':' :: '?' :: 'x' :: 't' ::
      '=' :: 'u' :: 'r' :: 'n' :: ':' :: 'b' :: 't' :: 'i' :: 'h' :: ':' ::
      (h.data.map jsUpperChar ++ R) := by
  obtain ⟨R1, h1⟩ := foldlTr_data (defaultTrackers ++ tr) (magnetBase h name)
  obtain ⟨N, h2⟩ := magnetBase_data h name
  refine ⟨N ++ R1, ?_⟩
  unfold createMagnetLink
  rw [h1, h2]
  simp

/-- C10: extracting the info hash from a magnet link created from a
40-character hexadecimal string returns that string upper-cased, for any
optional display name and tracker list; and on every input,
`extractInfoHash` returns either `none` or a 40-character upper-case
hexadecimal string. -/
theorem claim_C10_magnet_roundtrip :
    (∀ (h : String) (name : Option String) (trackers : List String),
      h.length = 40 → h.data.all isHexChar = true →
      extractInfoHash (createMagnetLink h name trackers) = some (jsUpperStr h)) ∧
    (∀ m : String, extractInfoHash m = none ∨
      ∃ s : String, extractInfoHash m = some s ∧ s.length = 40 ∧
        s.data.all isUpperHexChar = true) := by
  constructor
  · intro h name trackers hlen hhex
    obtain ⟨R, hdata⟩ := createMagnetLink_data h name trackers
    have hne : createMagnetLink h name trackers ≠ "" := by
      intro he
      rw [he] at hdata
      simp at hdata
    unfold extractInfoHash
    rw [if_neg hne, hdata]
    have hlen' : (h.data.map jsUpperChar).length = 40 := by
      rw [List.length_map]
      exact hlen
    have hhex' : (h.data.map jsUpperChar).all isHexChar = true := by
      rw [List.all_map]
      rw [List.all_eq_true] at hhex ⊢
      exact fun c hc => isHexChar_jsUpperChar (hhex c hc)
    rw [scanBtih_btih_prefixed (h.data.map jsUpperChar) R hlen' hhex']
    show some (jsUpperStr (String.mk (h.data.map jsUpperChar))) = some (jsUpperStr h)
    have : (h.data.map jsUpperChar).map jsUpperChar = h.data.map jsUpperChar := by
      rw [List.map_map]
      exact List.map_congr_left fun a _ => jsUpperChar_idem a
    unfold jsUpperStr
    rw [show (String.mk (h.data.map jsUpperChar)).data = h.data.map jsUpperChar from rfl, this]
  · intro m
    unfold extractInfoHash
    by_cases hm : m = ""
    · rw [if_pos hm]
      exact Or.inl rfl
    · rw [if_neg hm]
      cases hscan : scanBtih m.data with
      | none => exact Or.inl rfl
      | some hh =>
        refine Or.inr ⟨jsUpperStr (String.mk hh), rfl, ?_, ?_⟩
        · obtain ⟨hl, _⟩ := scanBtih_shape m.data hh hscan
          show (hh.map jsUpperChar).length = 40
          rw [List.length_map]
          exact hl
        · obtain ⟨_, ha⟩ := scanBtih_shape m.data hh hscan
          show (hh.map jsUpperChar).all isUpperHexChar = true
          rw [List.all_map]
          rw [List.all_eq_true] at ha ⊢
          exact fun c hc => isUpperHexChar_jsUpperChar (ha c hc)

/-- Witness for C10 at a concrete hash, name and tracker list. -/
theorem claim_C10_magnet_roundtrip_witness :
    extractInfoHash
      (createMagnetLink "0123456789abcdef0123456789abcdef01234567" (some "Тест файл")
        ["udp://tracker.example.org:80/announce"]) =
      some "0123456789ABCDEF0123456789ABCDEF01234567" := by
  have := claim_C10_magnet_roundtrip.1 "0123456789abcdef0123456789abcdef01234567"
    (some "Тест файл") ["udp://tracker.example.org:80/announce"] (by decide) (by decide)
  rw [this]
  rfl

/-! ## C6: totality, determinism and defaults of the Quality Extractor -/

/-- C6: `parseQuality` is total (a Lean function) and deterministic, every
field for which no keyword occurs in the lower-cased title stays at its
`null`/`false` default (the spec's "unknown"), and
`"Movie.Name.2020"` yields all-unknown with `hdr = false`. -/
theorem claim_C6_quality_defaults :
    (∀ t1 t2 : String, t1 = t2 → parseQuality t1 = parseQuality t2) ∧
    (∀ title : String,
      ((∀ kw ∈ ["2160p", "4k", "uhd", "1080p", "720p", "480p"],
          jsIncludes (jsLowerStr title) kw = false) →
        (parseQuality title).resolution = none) ∧
      ((∀ kw ∈ ["remux", "bluray", "bdrip", "brrip", "web-dl", "webdl", "webrip",
          "hdtv", "dvdrip", "cam", "camrip", "ts", "telesync"],
          jsIncludes (jsLowerStr title) kw = false) →
        (parseQuality title).source = none) ∧
      ((∀ kw ∈ ["hevc", "h265", "x265", "h264", "x264", "avc", "av1"],
          jsIncludes (jsLowerStr title) kw = false) →
        (parseQuality title).codec = none) ∧
      ((∀ kw ∈ ["atmos", "truehd", "dts-hd", "dts-ma", "dts", "dd5.1", "ac3", "aac"],
          jsIncludes (jsLowerStr title) kw = false) →
        (parseQuality title).audio = none) ∧
      ((∀ kw ∈ ["hdr", "hdr10", "dolby vision", "dv"],
          jsIncludes (jsLowerStr title) kw = false) →
        (parseQuality title).hdr = false)) ∧
    parseQuality "Movie.Name.2020" = ⟨none, none, none, none, false⟩ := by
  refine ⟨fun t1 t2 h => congrArg parseQuality h, fun title => ⟨?_, ?_, ?_, ?_, ?_⟩, by decide⟩
  · intro hkw
    have k1 := hkw "2160p" (by simp)
    have k2 := hkw "4k" (by simp)
    have k3 := hkw "uhd" (by simp)
    have k4 := hkw "1080p" (by simp)
    have k5 := hkw "720p" (by simp)
    have k6 := hkw "480p" (by simp)
    simp [parseQuality, k1, k2, k3, k4, k5, k6]
  · intro hkw
    have k1 := hkw "remux" (by simp)
    have k2 := hkw "bluray" (by simp)
    have k3 := hkw "bdrip" (by simp)
    have k4 := hkw "brrip" (by simp)
    have k5 := hkw "web-dl" (by simp)
    have k6 := hkw "webdl" (by simp)
    have k7 := hkw "webrip" (by simp)
    have k8 := hkw "hdtv" (by simp)
    have k9 := hkw "dvdrip" (by simp)
    have k10 := hkw "cam" (by simp)
    have k11 := hkw "camrip" (by simp)
    have k12 := hkw "ts" (by simp)
    have k13 := hkw "telesync" (by simp)
    simp [parseQuality, k1, k2, k3, k4, k5, k6, k7, k8, k9, k10, k11, k12, k13]
  · intro hkw
    have k1 := hkw "hevc" (by simp)
    have k2 := hkw "h265" (by simp)
    have k3 := hkw "x265" (by simp)
    have k4 := hkw "h264" (by simp)
    have k5 := hkw "x264" (by simp)
    have k6 := hkw "avc" (by simp)
    have k7 := hkw "av1" (by simp)
    simp [parseQuality, k1, k2, k3, k4, k5, k6, k7]
  · intro hkw
    have k1 := hkw "atmos" (by simp)
    have k2 := hkw "truehd" (by simp)
    have k3 := hkw "dts-hd" (by simp)
    have k4 := hkw "dts-ma" (by simp)
    have k5 := hkw "dts" (by simp)
    have k6 := hkw "dd5.1" (by simp)
    have k7 := hkw "ac3" (by simp)
    have k8 := hkw "aac" (by simp)
    simp [parseQuality, k1, k2, k3, k4, k5, k6, k7, k8]
  · intro hkw
    have k1 := hkw "hdr" (by simp)
    have k2 := hkw "hdr10" (by simp)
    have k3 := hkw "dolby vision" (by simp)
    have k4 := hkw "dv" (by simp)
    simp [parseQuality, k1, k2, k3, k4]

/-- Witness for C6 at the concrete title of the claim. -/
theorem claim_C6_quality_defaults_witness :
    (parseQuality "Movie.Name.2020").resolution = none ∧
    (parseQuality "Movie.Name.2020").hdr = false :=
  ⟨(claim_C6_quality_defaults.2.1 "Movie.Name.2020").1 (by decide),
   (claim_C6_quality_defaults.2.1 "Movie.Name.2020").2.2.2.2 (by decide)⟩

/-! ## C5: the Episode Matcher returns first match, then first video, then none -/

theorem feLoop1_eq (s e : Nat) : ∀ (l : List RdFile) (i : Nat),
    feLoop1 s e i l =
      (List.findIdx?
        (fun f => isVideoName videoExtsUtils (fileNameChars f) &&
          feMatches (fileNameChars f) s e) l i).map (fun j => j + 1) := by
  intro l
  induction l with
  | nil => intro i; rfl
  | cons f rest ih =>
    intro i
    rw [List.findIdx?_cons]
    by_cases hv : isVideoName videoExtsUtils (fileNameChars f) = true
    · by_cases hm2 : feMatches (fileNameChars f) s e = true
      · simp [feLoop1, hv, hm2]
      · simp [feLoop1, hv, hm2, ih]
    · simp [feLoop1, hv, ih]

theorem feLoop2_eq : ∀ (l : List RdFile) (i : Nat),
    feLoop2 i l =
      (List.findIdx? (fun f => isVideoName videoExtsUtils (fileNameChars f)) l i).map
        (fun j => j + 1) := by
  intro l
  induction l with
  | nil => intro i; rfl
  | cons f rest ih =>
    intro i
    rw [List.findIdx?_cons]
    by_cases hv : isVideoName videoExtsUtils (fileNameChars f) = true
    · simp [feLoop2, hv]
    · simp [feLoop2, hv, ih]

/-- C5: `findEpisodeFile` returns the 1-based position (in the original
list) of the first video file matching one of the episode patterns, else
the 1-based position of the first video file, else `none` — stated
against the library's first-index-satisfying function — and the three
concrete examples of the claim hold.  Totality ("never throws") is the
fact that it is a Lean function. -/
theorem claim_C5_episode_matcher :
    (∀ (files : List RdFile) (s e : Nat),
      findEpisodeFile files s e =
        match List.findIdx?
          (fun f => isVideoName videoExtsUtils (fileNameChars f) &&
            feMatches (fileNameChars f) s e) files with
        | some i => some (i + 1)
        | none =>
          (List.findIdx? (fun f => isVideoName videoExtsUtils (fileNameChars f)) files).map
            (fun i => i + 1)) ∧
    findEpisodeFile [⟨"Show.S01E01.mkv", ""⟩, ⟨"Show.S01E02.mkv", ""⟩,
      ⟨"sample.txt", ""⟩] 1 2 = some 2 ∧
    findEpisodeFile [⟨"random.mkv", ""⟩] 1 2 = some 1 ∧
    findEpisodeFile [⟨"readme.txt", ""⟩] 1 2 = none := by
  refine ⟨?_, by decide, by decide, by decide⟩
  intro files s e
  unfold findEpisodeFile
  rw [feLoop1_eq, feLoop2_eq]
  cases hfi : List.findIdx?
      (fun f => isVideoName videoExtsUtils (fileNameChars f) &&
        feMatches (fileNameChars f) s e) files 0 with
  | some i => rfl
  | none => rfl

/-! ## C2: non-digit boundary after the episode number -/

theorem isZeroChar_eq {c : Char} (h : isZeroChar c = true) : c = '0' :=
  eq_of_beq h

theorem litK_sound (pat : List Char) (k : List Char → Bool) (l : List Char)
    (h : litK pat k l = true) : ∃ t, l = pat ++ t ∧ k t = true := by
  unfold litK at h
  rw [Bool.and_eq_true] at h
  obtain ⟨t, ht⟩ := List.isPrefixOf_iff_prefix.mp h.1
  refine ⟨t, ht.symm, ?_⟩
  have hd : l.drop pat.length = t := by rw [← ht, List.drop_left]
  have h2 := h.2
  rw [hd] at h2
  exact h2

theorem starClass_sound (cls : Char → Bool) (k : List Char → Bool) :
    ∀ l, starClass cls k l = true →
      ∃ z t, l = z ++ t ∧ (∀ c ∈ z, cls c = true) ∧ k t = true := by
  intro l
  induction l with
  | nil =>
    intro h
    exact ⟨[], [], rfl, by simp, by simpa [starClass] using h⟩
  | cons c r ih =>
    intro h
    have h' : (k (c :: r) || (cls c && starClass cls k r)) = true := h
    rw [Bool.or_eq_true] at h'
    cases h' with
    | inl hk => exact ⟨[], c :: r, rfl, by simp, hk⟩
    | inr hcr =>
      rw [Bool.and_eq_true] at hcr
      obtain ⟨z, t, heq, hz, hk⟩ := ih hcr.2
      refine ⟨c :: z, t, ?_, ?_, hk⟩
      · rw [List.cons_append, ← heq]
      · intro x hx
        rcases List.mem_cons.mp hx with h1 | h2
        · rw [h1]; exact hcr.1
        · exact hz x h2

theorem anyPos_sound (p : List Char → Bool) :
    ∀ l, anyPos p l = true → ∃ pre t, l = pre ++ t ∧ p t = true := by
  intro l
  induction l with
  | nil =>
    intro h
    exact ⟨[], [], rfl, by simpa [anyPos] using h⟩
  | cons c r ih =>
    intro h
    have h' : (p (c :: r) || anyPos p r) = true := h
    rw [Bool.or_eq_true] at h'
    cases h' with
    | inl hk => exact ⟨[], c :: r, rfl, hk⟩
    | inr hr =>
      obtain ⟨pre, t, heq, hp⟩ := ih hr
      exact ⟨c :: pre, t, by rw [List.cons_append, ← heq], hp⟩

theorem anyPosBoundary_sound (p : List Char → Bool) :
    ∀ l prev, anyPosBoundary p prev l = true → ∃ pre t, l = pre ++ t ∧ p t = true := by
  intro l
  induction l with
  | nil =>
    intro prev h
    have h' : (bOk prev && p []) = true := h
    rw [Bool.and_eq_true] at h'
    exact ⟨[], [], rfl, h'.2⟩
  | cons c r ih =>
    intro prev h
    have h' : ((bOk prev && p (c :: r)) || anyPosBoundary p (some c) r) = true := h
    rw [Bool.or_eq_true] at h'
    cases h' with
    | inl hk =>
      rw [Bool.and_eq_true] at hk
      exact ⟨[], c :: r, rfl, hk.2⟩
    | inr hr =>
      obtain ⟨pre, t, heq, hp⟩ := ih (some c) hr
      exact ⟨c :: pre, t, by rw [List.cons_append, ← heq], hp⟩

theorem feEpiTail_sound (e : Nat) (l : List Char) (h : feEpiTail e l = true) :
    ∃ z2 t, l = 'e' :: (z2 ++ (natDigits e ++ t)) ∧ (∀ c ∈ z2, c = '0') ∧
      boundaryNotDigit t = true := by
  cases l with
  | nil => simp [feEpiTail] at h
  | cons c r =>
    have h' : ((c == 'e') && starClass isZeroChar (litK (natDigits e) boundaryNotDigit) r)
        = true := h
    rw [Bool.and_eq_true] at h'
    have hc : c = 'e' := eq_of_beq h'.1
    obtain ⟨z, t0, heq, hz, hk⟩ := starClass_sound isZeroChar _ r h'.2
    obtain ⟨t, ht, hb⟩ := litK_sound (natDigits e) boundaryNotDigit t0 hk
    refine ⟨z, t, ?_, fun x hx => isZeroChar_eq (hz x hx), hb⟩
    rw [hc, heq, ht]

theorem feXTail_sound (e : Nat) (l : List Char) (h : feXTail e l = true) :
    ∃ z t, l = 'x' :: (z ++ (natDigits e ++ t)) ∧ (∀ c ∈ z, c = '0') ∧
      boundaryNotDigit t = true := by
  cases l with
  | nil => simp [feXTail] at h
  | cons c r =>
    have h' : ((c == 'x') && starClass isZeroChar (litK (natDigits e) boundaryNotDigit) r)
        = true := h
    rw [Bool.and_eq_true] at h'
    have hc : c = 'x' := eq_of_beq h'.1
    obtain ⟨z, t0, heq, hz, hk⟩ := starClass_sound isZeroChar _ r h'.2
    obtain ⟨t, ht, hb⟩ := litK_sound (natDigits e) boundaryNotDigit t0 hk
    refine ⟨z, t, ?_, fun x hx => isZeroChar_eq (hz x hx), hb⟩
    rw [hc, heq, ht]

/-- C2 (amended): the `S/E` pattern of `findEpisodeFile` only accepts a
name containing a complete `s 0* ⟨season⟩ e 0* ⟨episode⟩` marker whose
episode digits are followed by a non-digit or the end of the name (the
`(?!\d)` lookahead), and likewise for its `NxM` pattern; concretely, the
patterns for episode 1 reject `show.s01e10.mkv` and `show 1x10.mkv`,
whose only episode marker is number 10. -/
theorem claim_C2_nondigit_boundary :
    (∀ (s e : Nat) (l : List Char), feP1 s e l = true →
      ∃ pre z1 z2 t,
        l = pre ++ 's' :: (z1 ++ (natDigits s ++ 'e' :: (z2 ++ (natDigits e ++ t)))) ∧
        (∀ c ∈ z1, c = '0') ∧ (∀ c ∈ z2, c = '0') ∧ boundaryNotDigit t = true) ∧
    (∀ (s e : Nat) (l : List Char), feP2 s e l = true →
      ∃ pre z t,
        l = pre ++ (natDigits s ++ 'x' :: (z ++ (natDigits e ++ t))) ∧
        (∀ c ∈ z, c = '0') ∧ boundaryNotDigit t = true) ∧
    feP1 1 1 ((jsLowerStr "Show.S01E10.mkv").data) = false ∧
    feP2 1 1 ((jsLowerStr "Show 1x10.mkv").data) = false := by
  refine ⟨?_, ?_, by decide, by decide⟩
  · intro s e l h
    obtain ⟨pre, t0, heq, hp⟩ := anyPos_sound (feP1At s e) l h
    cases t0 with
    | nil => simp [feP1At] at hp
    | cons c r =>
      have h' : ((c == 's') && starClass isZeroChar (litK (natDigits s) (feEpiTail e)) r)
          = true := hp
      rw [Bool.and_eq_true] at h'
      have hc : c = 's' := eq_of_beq h'.1
      obtain ⟨z1, t1, heq1, hz1, hk1⟩ := starClass_sound isZeroChar _ r h'.2
      obtain ⟨t2, ht2, hk2⟩ := litK_sound (natDigits s) (feEpiTail e) t1 hk1
      obtain ⟨z2, t, ht3, hz2, hb⟩ := feEpiTail_sound e t2 hk2
      refine ⟨pre, z1, z2, t, ?_, fun x hx => isZeroChar_eq (hz1 x hx), hz2, hb⟩
      rw [heq, hc, heq1, ht2, ht3]
  · intro s e l h
    obtain ⟨pre, t0, heq, hp⟩ := anyPosBoundary_sound (feP2At s e) l none h
    obtain ⟨t1, ht1, hk1⟩ := litK_sound (natDigits s) (feXTail e) t0 hp
    obtain ⟨z, t, ht2, hz, hb⟩ := feXTail_sound e t1 hk1
    refine ⟨pre, z, t, ?_, hz, hb⟩
    rw [heq, ht1, ht2]

/-- Witness for C2 at a genuinely matching name. -/
theorem claim_C2_nondigit_boundary_witness :
    ∃ pre z1 z2 t,
      (jsLowerStr "Show.S01E01.mkv").data =
        pre ++ 's' :: (z1 ++ (natDigits 1 ++ 'e' :: (z2 ++ (natDigits 1 ++ t)))) ∧
      (∀ c ∈ z1, c = '0') ∧ (∀ c ∈ z2, c = '0') ∧ boundaryNotDigit t = true :=
  claim_C2_nondigit_boundary.1 1 1 ((jsLowerStr "Show.S01E01.mkv").data) (by decide)

/-- C2 counterexample: the handler's `findVideoFile` patterns have no
non-digit boundary, so for season 1 episode 1 the `S/E` pattern accepts
`show.s01e10.mkv` (whose only episode marker is E10) and the matcher
selects it over the genuine E01 file; the utility `findEpisodeFile` on
the same list picks the E01 file. -/
theorem claim_C2_counterexample :
    fvP1 1 1 ((jsLowerStr "Show.S01E10.mkv").data) = true ∧
    fvMatches ((jsLowerStr "Show.S01E10.mkv").data) 1 1 = true ∧
    findVideoFile [⟨"Show.S01E10.mkv"⟩, ⟨"Show.S01E01.mkv"⟩] 1 1 = some 1 ∧
    findEpisodeFile [⟨"Show.S01E10.mkv", ""⟩, ⟨"Show.S01E01.mkv", ""⟩] 1 1 = some 2 := by
  refine ⟨by decide, by decide, by decide, by decide⟩

/-! ## C4: deduplication is first-seen-wins by upper-cased hash -/

theorem removeDupAux_nil (seen : List String) : removeDupAux seen [] = [] := rfl

theorem removeDupAux_cons (seen : List String) (t : Torrent) (rest : List Torrent) :
    removeDupAux seen (t :: rest) =
      if t.infoHash = "" then t :: removeDupAux seen rest
      else if seen.contains (jsUpperStr t.infoHash) then removeDupAux seen rest
      else t :: removeDupAux (jsUpperStr t.infoHash :: seen) rest := rfl

theorem removeDupAux_sublist : ∀ (l : List Torrent) (seen : List String),
    List.Sublist (removeDupAux seen l) l := by
  intro l
  induction l with
  | nil => intro seen; exact List.Sublist.refl []
  | cons t rest ih =>
    intro seen
    rw [removeDupAux_cons]
    split_ifs with h1 h2
    · exact (ih seen).cons₂ t
    · exact (ih seen).cons t
    · exact (ih _).cons₂ t

theorem removeDupAux_not_seen : ∀ (l : List Torrent) (seen : List String),
    (∀ t ∈ l, t.infoHash ≠ "") →
    ∀ u ∈ removeDupAux seen l, seen.contains (jsUpperStr u.infoHash) = false := by
  intro l
  induction l with
  | nil => intro seen _ u hu; simp [removeDupAux_nil] at hu
  | cons t rest ih =>
    intro seen hne u hu
    rw [removeDupAux_cons, if_neg (hne t (by simp))] at hu
    by_cases h2 : seen.contains (jsUpperStr t.infoHash) = true
    · rw [if_pos h2] at hu
      exact ih seen (fun x hx => hne x (List.mem_cons_of_mem t hx)) u hu
    · rw [if_neg h2] at hu
      rcases List.mem_cons.mp hu with h3 | h3
      · rw [Bool.not_eq_true] at h2
        rw [h3]
        exact h2
      · have hin := ih (jsUpperStr t.infoHash :: seen)
          (fun x hx => hne x (List.mem_cons_of_mem t hx)) u h3
        simp only [List.contains_cons, Bool.or_eq_false_iff] at hin
        exact hin.2

theorem removeDupAux_pairwise : ∀ (l : List Torrent) (seen : List String),
    (∀ t ∈ l, t.infoHash ≠ "") →
    (removeDupAux seen l).Pairwise
      (fun a b => jsUpperStr a.infoHash ≠ jsUpperStr b.infoHash) := by
  intro l
  induction l with
  | nil => intro seen _; simp [removeDupAux_nil]
  | cons t rest ih =>
    intro seen hne
    have hne' : ∀ x ∈ rest, x.infoHash ≠ "" := fun x hx => hne x (List.mem_cons_of_mem t hx)
    rw [removeDupAux_cons, if_neg (hne t (by simp))]
    by_cases h2 : seen.contains (jsUpperStr t.infoHash) = true
    · rw [if_pos h2]
      exact ih seen hne'
    · rw [if_neg h2]
      refine List.pairwise_cons.mpr ⟨?_, ih _ hne'⟩
      intro b hb
      have hnb := removeDupAux_not_seen rest (jsUpperStr t.infoHash :: seen) hne' b hb
      simp only [List.contains_cons, Bool.or_eq_false_iff] at hnb
      intro heq
      have := hnb.1
      rw [heq] at this
      simp at this

theorem removeDupAux_first : ∀ (l : List Torrent) (seen : List String),
    (∀ t ∈ l, t.infoHash ≠ "") →
    ∀ u ∈ removeDupAux seen l,
      List.find? (fun x => jsUpperStr x.infoHash == jsUpperStr u.infoHash) l = some u := by
  intro l
  induction l with
  | nil => intro seen _ u hu; simp [removeDupAux_nil] at hu
  | cons t rest ih =>
    intro seen hne u hu
    have hne' : ∀ x ∈ rest, x.infoHash ≠ "" := fun x hx => hne x (List.mem_cons_of_mem t hx)
    rw [removeDupAux_cons, if_neg (hne t (by simp))] at hu
    by_cases h2 : seen.contains (jsUpperStr t.infoHash) = true
    · rw [if_pos h2] at hu
      have hno := removeDupAux_not_seen rest seen hne' u hu
      have hp : (jsUpperStr t.infoHash == jsUpperStr u.infoHash) = false := by
        rw [beq_eq_false_iff_ne]
        intro heq
        rw [← heq] at hno
        rw [hno] at h2
        cases h2
      rw [List.find?_cons_of_neg _ (by rw [hp]; exact Bool.false_ne_true)]
      exact ih seen hne' u hu
    · rw [if_neg h2] at hu
      rcases List.mem_cons.mp hu with h3 | h3
      · subst h3
        rw [List.find?_cons_of_pos _ (by simp)]
      · have hnb := removeDupAux_not_seen rest (jsUpperStr t.infoHash :: seen) hne' u h3
        simp only [List.contains_cons, Bool.or_eq_false_iff] at hnb
        have hp : (jsUpperStr t.infoHash == jsUpperStr u.infoHash) = false := by
          rw [beq_eq_false_iff_ne]
          intro heq
          have := hnb.1
          rw [heq] at this
          simp at this
        rw [List.find?_cons_of_neg _ (by rw [hp]; exact Bool.false_ne_true)]
        exact ih (jsUpperStr t.infoHash :: seen) hne' u h3

theorem removeDupAux_cover : ∀ (l : List Torrent) (seen : List String),
    (∀ t ∈ l, t.infoHash ≠ "") →
    ∀ t ∈ l, seen.contains (jsUpperStr t.infoHash) = false →
      ∃ u ∈ removeDupAux seen l, jsUpperStr u.infoHash = jsUpperStr t.infoHash := by
  intro l
  induction l with
  | nil => intro seen _ t ht; simp at ht
  | cons t0 rest ih =>
    intro seen hne t ht hseen
    have hne' : ∀ x ∈ rest, x.infoHash ≠ "" := fun x hx => hne x (List.mem_cons_of_mem t0 hx)
    rw [removeDupAux_cons, if_neg (hne t0 (by simp))]
    by_cases h2 : seen.contains (jsUpperStr t0.infoHash) = true
    · rw [if_pos h2]
      rcases List.mem_cons.mp ht with h3 | h3
      · rw [h3] at hseen
        rw [hseen] at h2
        cases h2
      · exact ih seen hne' t h3 hseen
    · rw [if_neg h2]
      rcases List.mem_cons.mp ht with h3 | h3
      · exact ⟨t0, by simp, by rw [h3]⟩
      · by_cases heq : jsUpperStr t.infoHash = jsUpperStr t0.infoHash
        · exact ⟨t0, by simp, heq.symm⟩
        · have hs2 : (jsUpperStr t0.infoHash :: seen).contains (jsUpperStr t.infoHash) = false := by
            simp only [List.contains_cons, Bool.or_eq_false_iff]
            exact ⟨beq_eq_false_iff_ne.mpr heq, hseen⟩
          obtain ⟨u, hu, hequ⟩ := ih (jsUpperStr t0.infoHash :: seen) hne' t h3 hs2
          exact ⟨u, List.mem_cons_of_mem t0 hu, hequ⟩

/-- C4: on candidate lists whose entries all carry a (non-empty) identity
hash — the data model's invariant — `removeDuplicates` keeps no two
entries with the same upper-cased hash, preserves input order (the output
is a sublist), every retained entry is the first entry of the input with
its normalized hash (regardless of source), and every input hash is still
represented. -/
theorem claim_C4_dedup_first_seen (l : List Torrent)
    (hne : ∀ t ∈ l, t.infoHash ≠ "") :
    (removeDuplicates l).Pairwise
      (fun a b => jsUpperStr a.infoHash ≠ jsUpperStr b.infoHash) ∧
    List.Sublist (removeDuplicates l) l ∧
    (∀ u ∈ removeDuplicates l,
      List.find? (fun x => jsUpperStr x.infoHash == jsUpperStr u.infoHash) l = some u) ∧
    (∀ t ∈ l, ∃ u ∈ removeDuplicates l,
      jsUpperStr u.infoHash = jsUpperStr t.infoHash) := by
  refine ⟨removeDupAux_pairwise l [] hne, removeDupAux_sublist l [], ?_, ?_⟩
  · exact removeDupAux_first l [] hne
  · intro t ht
    exact removeDupAux_cover l [] hne t ht (by simp)

/-- Witness for C4 on a concrete list with a case-differing duplicate
hash from another source. -/
theorem claim_C4_dedup_first_seen_witness :
    (removeDuplicates
        [⟨"a", "ABCDEF", "1 GB", some 3, "1080p", "Rutor"⟩,
         ⟨"b", "abcdef", "1 GB", some 5, "720p", "Kinozal"⟩,
         ⟨"c", "FFFF00", "2 GB", some 1, "4K", "Rutor"⟩]).Pairwise
      (fun a b => jsUpperStr a.infoHash ≠ jsUpperStr b.infoHash) ∧
    List.Sublist
      (removeDuplicates
        [⟨"a", "ABCDEF", "1 GB", some 3, "1080p", "Rutor"⟩,
         ⟨"b", "abcdef", "1 GB", some 5, "720p", "Kinozal"⟩,
         ⟨"c", "FFFF00", "2 GB", some 1, "4K", "Rutor"⟩])
      [⟨"a", "ABCDEF", "1 GB", some 3, "1080p", "Rutor"⟩,
       ⟨"b", "abcdef", "1 GB", some 5, "720p", "Kinozal"⟩,
       ⟨"c", "FFFF00", "2 GB", some 1, "4K", "Rutor"⟩] :=
  ⟨(claim_C4_dedup_first_seen _ (by decide)).1,
   (claim_C4_dedup_first_seen _ (by decide)).2.1⟩

/-! ## C3: the ranking rule -/

/-- C3 counterexample: with candidates of (seeders, quality)
`(20, HDTV)`, `(5, 4K)`, `(12, 1080p)` the claimed pairwise rule is
violated by the model's `sortByPriority` output, and indeed by every
permutation of the input: the comparator's pair rule demands
`(20,HDTV)` before `(5,4K)` (seed gap 15), `(5,4K)` before
`(12,1080p)` (gap 7, higher priority) and `(12,1080p)` before
`(20,HDTV)` (gap 8, higher priority) — a cycle, so no ranked output can
satisfy the claim for every pair. -/
theorem claim_C3_ranking_counterexample :
    ¬ (sortByPriority
        [⟨"A", "HA", "", some 20, "HDTV", "s"⟩,
         ⟨"B", "HB", "", some 5, "4K", "s"⟩,
         ⟨"C", "HC", "", some 12, "1080p", "s"⟩]).Pairwise
      (fun a b =>
        ((((seedersD a : Int) - (seedersD b : Int)).natAbs > 10 →
          seedersD b < seedersD a) ∧
          (((seedersD a : Int) - (seedersD b : Int)).natAbs ≤ 10 →
          qualityPriority b.quality ≤ qualityPriority a.quality))) ∧
    sortCmp ⟨"A", "HA", "", some 20, "HDTV", "s"⟩ ⟨"B", "HB", "", some 5, "4K", "s"⟩ < 0 ∧
    sortCmp ⟨"B", "HB", "", some 5, "4K", "s"⟩ ⟨"C", "HC", "", some 12, "1080p", "s"⟩ < 0 ∧
    sortCmp ⟨"C", "HC", "", some 12, "1080p", "s"⟩ ⟨"A", "HA", "", some 20, "HDTV", "s"⟩ < 0 := by
  refine ⟨by decide, by decide, by decide, by decide⟩

/-- C3 (amended): the pairwise rule of the claim holds of the comparator
each time two candidates are compared — seeder difference above 10
decides by seeders, otherwise the quality-priority table (with exactly
the claimed values) decides — but the comparator is not transitive, so
the rule cannot hold between every two elements of the ranked output
(see the counterexample); the aggregator's own ranking in
`TorrentSearcher.search` moreover sorts by seeders alone. -/
theorem claim_C3_ranking_comparator :
    (∀ a b : Torrent, (((seedersD b : Int) - (seedersD a : Int)).natAbs > 10) →
      (sortCmp a b < 0 ↔ seedersD b < seedersD a)) ∧
    (∀ a b : Torrent, (((seedersD b : Int) - (seedersD a : Int)).natAbs ≤ 10) →
      (sortCmp a b < 0 ↔ qualityPriority b.quality < qualityPriority a.quality)) ∧
    (qualityPriority "4K" = 100 ∧ qualityPriority "REMUX" = 95 ∧
     qualityPriority "2160p" = 90 ∧ qualityPriority "1080p" = 80 ∧
     qualityPriority "BluRay" = 70 ∧ qualityPriority "WEB-DL" = 65 ∧
     qualityPriority "720p" = 60 ∧ qualityPriority "WEBRip" = 60 ∧
     qualityPriority "HDTV" = 50 ∧ qualityPriority "480p" = 40 ∧
     qualityPriority "No.Quality.Tag" = 0) := by
  refine ⟨?_, ?_, by decide⟩
  · intro a b h
    unfold sortCmp
    rw [if_pos h]
    omega
  · intro a b h
    unfold sortCmp
    rw [if_neg (by omega)]
    omega

/-- Witness for C3 at concrete seed gaps of 15 and 7. -/
theorem claim_C3_ranking_comparator_witness :
    (sortCmp ⟨"A", "HA", "", some 20, "HDTV", "s"⟩ ⟨"B", "HB", "", some 5, "4K", "s"⟩ < 0 ↔
      seedersD ⟨"B", "HB", "", some 5, "4K", "s"⟩ <
        seedersD ⟨"A", "HA", "", some 20, "HDTV", "s"⟩) ∧
    (sortCmp ⟨"B", "HB", "", some 5, "4K", "s"⟩ ⟨"C", "HC", "", some 12, "1080p", "s"⟩ < 0 ↔
      qualityPriority "1080p" < qualityPriority "4K") :=
  ⟨claim_C3_ranking_comparator.1 _ _ (by decide),
   claim_C3_ranking_comparator.2.1 _ _ (by decide)⟩

/-! ## C7: aggregator fail-soft -/

theorem collectFold_eq :
    ∀ (l : List (Except String (List Torrent))) (acc : List Torrent),
      List.foldl
        (fun acc r =>
          match r with
          | .ok v => acc ++ v
          | .error _ => acc) acc l =
      acc ++ (l.filterMap
        (fun r =>
          match r with
          | .ok v => some v
          | .error _ => none)).flatten := by
  intro l
  induction l with
  | nil => intro acc; simp
  | cons r l ih =>
    intro acc
    cases r with
    | ok v => simp [ih, List.append_assoc]
    | error e => simp [ih]

theorem collectSettled_flatten (outcomes : List (Except String (List Torrent))) :
    collectSettled outcomes =
      (outcomes.filterMap
        (fun r =>
          match r with
          | .ok v => some v
          | .error _ => none)).flatten := by
  unfold collectSettled
  rw [collectFold_eq]
  simp

theorem collectSettled_append_error (xs ys : List (Except String (List Torrent)))
    (e : String) :
    collectSettled (xs ++ .error e :: ys) = collectSettled (xs ++ ys) := by
  unfold collectSettled
  rw [List.foldl_append, List.foldl_append, List.foldl_cons]

/-- C7 (amended): a rejected (thrown or timed-out) adapter contributes
nothing — removing it from the settled outcomes does not change the
aggregator's result — and the returned list is a permutation of the
concatenation of the successful adapters' outputs, namely that
concatenation stably sorted by seeder count descending (the aggregator
sorts before returning, so the output does not literally equal the
concatenation); no exception propagates (the aggregator returns a plain
list for every outcome vector). -/
theorem claim_C7_failsoft :
    (∀ (xs ys : List (Except String (List Torrent))) (e : String),
      searchAggregate (xs ++ .error e :: ys) = searchAggregate (xs ++ ys)) ∧
    (∀ outcomes : List (Except String (List Torrent)),
      searchAggregate outcomes = sortBySeeders (collectSettled outcomes)) ∧
    (∀ outcomes : List (Except String (List Torrent)),
      List.Perm (searchAggregate outcomes)
        ((outcomes.filterMap
          (fun r =>
            match r with
            | .ok v => some v
            | .error _ => none)).flatten)) := by
  refine ⟨?_, fun _ => rfl, ?_⟩
  · intro xs ys e
    unfold searchAggregate
    rw [collectSettled_append_error]
  · intro outcomes
    unfold searchAggregate sortBySeeders
    rw [← collectSettled_flatten]
    exact List.perm_insertionSort seedersLe (collectSettled outcomes)

/-- C7 counterexample: one adapter rejects, the other fulfills
`[t1 (1 seeder), t2 (5 seeders)]`; the aggregator returns `[t2, t1]` —
the successful adapter's output re-sorted by seeders — not the
concatenation `[t1, t2]` itself. -/
theorem claim_C7_failsoft_counterexample :
    searchAggregate
        [.error "timeout",
         .ok [⟨"t1", "HASH1", "700 MB", some 1, "720p", "Rutor"⟩,
              ⟨"t2", "HASH2", "1.4 GB", some 5, "1080p", "Rutor"⟩]] =
      [⟨"t2", "HASH2", "1.4 GB", some 5, "1080p", "Rutor"⟩,
       ⟨"t1", "HASH1", "700 MB", some 1, "720p", "Rutor"⟩] ∧
    searchAggregate
        [.error "timeout",
         .ok [⟨"t1", "HASH1", "700 MB", some 1, "720p", "Rutor"⟩,
              ⟨"t2", "HASH2", "1.4 GB", some 5, "1080p", "Rutor"⟩]] ≠
      [⟨"t1", "HASH1", "700 MB", some 1, "720p", "Rutor"⟩,
       ⟨"t2", "HASH2", "1.4 GB", some 5, "1080p", "Rutor"⟩] := by
  refine ⟨by decide, by decide⟩

/-! ## C8: the availability-resolution loop -/

theorem rsLoop_cons (check : String → Except String RdInfo) (mediaType : String)
    (season episode : Nat) (acc : List StremioStream) (t : Torrent)
    (rest : List Torrent) :
    rsLoop check mediaType season episode acc (t :: rest) =
      match check t.infoHash with
      | .error _ => rsLoop check mediaType season episode acc rest
      | .ok info =>
        if info.available then
          rsLoop check mediaType season episode
            (acc ++ [mkStreamRec t
              (if mediaType = "series" then
                match info.files with
                | some fs => findVideoFile fs season episode
                | none => none
              else none)]) rest
        else rsLoop check mediaType season episode acc rest := rfl

theorem emitOne_eq (check : String → Except String RdInfo) (mediaType : String)
    (season episode : Nat) (t : Torrent) :
    emitOne check mediaType season episode t =
      match check t.infoHash with
      | .error _ => none
      | .ok info =>
        if info.available then
          some (mkStreamRec t
            (if mediaType = "series" then
              match info.files with
              | some fs => findVideoFile fs season episode
              | none => none
            else none))
        else none := rfl

theorem rsLoop_eq (check : String → Except String RdInfo) (mediaType : String)
    (season episode : Nat) :
    ∀ (l : List Torrent) (acc : List StremioStream),
      rsLoop check mediaType season episode acc l =
        acc ++ l.filterMap (emitOne check mediaType season episode) := by
  intro l
  induction l with
  | nil => intro acc; simp [rsLoop]
  | cons t rest ih =>
    intro acc
    rw [rsLoop_cons, List.filterMap_cons, emitOne_eq]
    cases hc : check t.infoHash with
    | error m => simp [ih]
    | ok info =>
      by_cases hav : info.available = true
      · simp only [hav, if_true, ih, List.append_assoc, List.singleton_append]
      · rw [Bool.not_eq_true] at hav
        simp [hav, ih]

/-- C8: the resolver processes exactly the first 15 ranked candidates in
order; a provider-call error or an unavailable answer for a candidate
yields no stream for that candidate and leaves the others untouched; an
available answer for non-episodic media yields a stream whose file index
is `none`. -/
theorem claim_C8_availability_resolver :
    (∀ check mediaType season episode (torrents : List Torrent),
      resolveStreams check mediaType season episode torrents =
        (torrents.take 15).filterMap (emitOne check mediaType season episode)) ∧
    (∀ check mediaType season episode (t : Torrent) msg,
      check t.infoHash = .error msg →
      emitOne check mediaType season episode t = none) ∧
    (∀ check mediaType season episode (t : Torrent) info,
      check t.infoHash = .ok info → info.available = false →
      emitOne check mediaType season episode t = none) ∧
    (∀ check mediaType season episode (t : Torrent) info,
      check t.infoHash = .ok info → info.available = true → mediaType ≠ "series" →
      emitOne check mediaType season episode t = some (mkStreamRec t none)) ∧
    (∀ check mediaType season episode (l1 l2 : List Torrent) (t : Torrent) msg,
      check t.infoHash = .error msg →
      (l1 ++ t :: l2).filterMap (emitOne check mediaType season episode) =
        (l1 ++ l2).filterMap (emitOne check mediaType season episode)) := by
  refine ⟨?_, ?_, ?_, ?_, ?_⟩
  · intro check mt s e ts
    unfold resolveStreams
    rw [rsLoop_eq]
    simp
  · intro check mt s e t msg hc
    rw [emitOne_eq, hc]
  · intro check mt s e t info hc hav
    rw [emitOne_eq, hc]
    simp [hav]
  · intro check mt s e t info hc hav hns
    rw [emitOne_eq, hc]
    simp [hav, hns]
  · intro check mt s e l1 l2 t msg hc
    rw [List.filterMap_append, List.filterMap_append, List.filterMap_cons, emitOne_eq, hc]

/-- Witness for C8 at concrete provider behaviours. -/
theorem claim_C8_availability_resolver_witness :
    emitOne (fun _ => .error "network") "movie" 1 1
      ⟨"t", "HASH", "1 GB", some 3, "1080p", "Rutor"⟩ = none ∧
    emitOne (fun _ => .ok ⟨false, none⟩) "movie" 1 1
      ⟨"t", "HASH", "1 GB", some 3, "1080p", "Rutor"⟩ = none ∧
    emitOne (fun _ => .ok ⟨true, none⟩) "movie" 1 1
      ⟨"t", "HASH", "1 GB", some 3, "1080p", "Rutor"⟩ =
      some (mkStreamRec ⟨"t", "HASH", "1 GB", some 3, "1080p", "Rutor"⟩ none) :=
  ⟨claim_C8_availability_resolver.2.1 _ "movie" 1 1 _ "network" rfl,
   claim_C8_availability_resolver.2.2.1 _ "movie" 1 1 _ ⟨false, none⟩ rfl rfl,
   claim_C8_availability_resolver.2.2.2.1 _ "movie" 1 1 _ ⟨true, none⟩ rfl rfl (by decide)⟩

/-! ## C1: the result-cache key uses only an 8-character credential fragment -/

/-- C1 counterexample: two distinct credentials sharing their first 8
characters produce the same cache key for the same media id, and a cache
entry written under one credential is returned for the other. -/
theorem claim_C1_cache_counterexample :
    cacheKey "tt0111161" "AAAAAAAA11111111" = cacheKey "tt0111161" "AAAAAAAA22222222" ∧
    ("AAAAAAAA11111111" : String) ≠ "AAAAAAAA22222222" ∧
    (getCache
        (setCache emptyCache (cacheKey "tt0111161" "AAAAAAAA11111111")
          [mkStreamRec ⟨"t", "HASH", "1 GB", some 3, "1080p", "Rutor"⟩ none] 0)
        (cacheKey "tt0111161" "AAAAAAAA22222222") 1000).1 =
      some [mkStreamRec ⟨"t", "HASH", "1 GB", some 3, "1080p", "Rutor"⟩ none] := by
  refine ⟨by decide, by decide, by decide⟩

/-- C1 (amended): the cache key incorporates only the first 8 characters
of the requester's credential: requests whose credentials differ within
the first 8 characters get distinct keys and never read each other's
freshly written entry, but distinct credentials sharing an 8-character
fragment collide (see the counterexample). -/
theorem claim_C1_cache_key_fragment (id k1 k2 : String)
    (hfrag : k1.data.take 8 ≠ k2.data.take 8) :
    cacheKey id k1 ≠ cacheKey id k2 ∧
    ∀ streams t now,
      (getCache (setCache emptyCache (cacheKey id k1) streams t)
        (cacheKey id k2) now).1 = none := by
  have hkeys : cacheKey id k1 ≠ cacheKey id k2 := by
    intro he
    apply hfrag
    have hd := congrArg String.data he
    unfold cacheKey at hd
    rw [String.data_append, String.data_append, String.data_append,
      String.data_append, String.data_append, String.data_append] at hd
    exact List.append_cancel_left hd
  refine ⟨hkeys, ?_⟩
  intro streams t now
  have hbeq : (cacheKey id k1 == cacheKey id k2) = false := beq_eq_false_iff_ne.mpr hkeys
  unfold getCache lookupCache setCache emptyCache
  simp [List.find?, hbeq]

/-- Witness for C1 at concrete differing fragments. -/
theorem claim_C1_cache_key_fragment_witness :
    cacheKey "tt1" "AAAAAAAA1" ≠ cacheKey "tt1" "BBBBBBBB1" ∧
    (getCache (setCache emptyCache (cacheKey "tt1" "AAAAAAAA1") [] 0)
      (cacheKey "tt1" "BBBBBBBB1") 5).1 = none :=
  ⟨(claim_C1_cache_key_fragment "tt1" "AAAAAAAA1" "BBBBBBBB1" (by decide)).1,
   (claim_C1_cache_key_fragment "tt1" "AAAAAAAA1" "BBBBBBBB1" (by decide)).2 [] 0 5⟩

/-! ## C9: behaviour of the two handlers on a missing credential -/

/-- C9: the newer handler answers a request without a debrid credential
with the user-visible configuration-required notice and never invokes
the search/availability pipeline; the older handler performs no
credential check — its body throws (`TypeError` from
`config.rdApiKey.substring`) and the generic catch surfaces a `❌ Ошибка`
error notice, which is not the configuration-required result (also
without invoking the pipeline). -/
theorem claim_C9_missing_credential :
    (∀ pipeline, handler001 none pipeline =
      (.notice "⚠️ Требуется API ключ Real-Debrid" "Настройте аддон и добавьте API ключ",
        false)) ∧
    (∀ pipeline, handler001 (some "") pipeline =
      (.notice "⚠️ Требуется API ключ Real-Debrid" "Настройте аддон и добавьте API ключ",
        false)) ∧
    (∀ pipeline, handler000Body none pipeline =
      .error "Cannot read properties of undefined (reading 'substring')") ∧
    (∀ pipeline, handler000 none pipeline =
      (.notice "❌ Ошибка" "Cannot read properties of undefined (reading 'substring')",
        false)) ∧
    (HandlerResult.notice "❌ Ошибка"
        "Cannot read properties of undefined (reading 'substring')" ≠
      HandlerResult.notice "⚠️ Требуется API ключ Real-Debrid"
        "Настройте аддон и добавьте API ключ") := by
  refine ⟨fun pipeline => rfl, fun pipeline => rfl, fun pipeline => rfl,
    fun pipeline => rfl, by decide⟩

end StremioRD
